import Mathlib

/-!
Verification of the period-scoped league service.

This file embeds, in Lean, the data model and the request handlers of the
Go service (second revision of the main server file, together with the
`init.sql` schema): the `periods`, `teams`, `players` and `matches` tables,
the `GetOrCreateActivePeriod` resolver with its in-process cache, the
period lookup by calendar date, and the mutating handlers
(`addTeamHandler`, `addMatchHandler`, `deleteMatchHandler`,
`addPlayerHandler`, `deletePlayerHandler`) plus the listing queries.

Time is modelled in whole seconds (an `Int`); `time.Since(t)` is `now - t`,
`time.Minute` is `60`, `24*time.Hour` is `24*3600`.  SQL query results whose
row order the database does not fix (an `ORDER BY` with ties, or none) are
modelled relationally; everything the code determines is a function.
-/

namespace League

/-- One second of model time.  `time.Minute` of the Go code. -/
def minuteSec : Int := 60

/-- `24 * time.Hour` of the Go code, in seconds. -/
def daySec : Int := 24 * 3600

/-- A row of the `periods` table (`init.sql`): `id SERIAL`, `name TEXT`,
`start_time TIMESTAMP`, `end_time TIMESTAMP` (nullable),
`is_active BOOLEAN`. -/
structure PeriodRow where
  id : Nat
  name : String
  startTime : Int
  endTime : Option Int
  isActive : Bool
deriving DecidableEq, Repr

/-- A row of the `teams` table: `id SERIAL`, `name TEXT`,
`period_id INT REFERENCES periods`. -/
structure TeamRow where
  id : Nat
  name : String
  periodId : Nat
deriving DecidableEq, Repr

/-- A row of the `players` table: `id SERIAL`, `name TEXT`,
`team_id INT REFERENCES teams`, `goals INT`, `assists INT`. -/
structure PlayerRow where
  id : Nat
  name : String
  teamId : Nat
  goals : Int
  assists : Int
deriving DecidableEq, Repr

/-- A row of the `matches` table: `id SERIAL`, the two team references,
the two scores, `played_at TIMESTAMP`, `period_id INT`. -/
structure MatchRow where
  id : Nat
  team1Id : Nat
  team2Id : Nat
  score1 : Int
  score2 : Int
  playedAt : Int
  periodId : Nat
deriving DecidableEq, Repr

/-- The database state: the four tables, plus the next value of each
`SERIAL` sequence. -/
structure DB where
  periods : List PeriodRow
  teams : List TeamRow
  players : List PlayerRow
  matchRows : List MatchRow
  nextPeriodId : Nat
  nextTeamId : Nat
  nextPlayerId : Nat
  nextMatchId : Nat
deriving DecidableEq, Repr

/-- The process-wide mutable globals `cachedPeriod` and `lastPeriodCheck`
of the Go file. -/
structure Cache where
  cachedPeriod : Option PeriodRow
  lastPeriodCheck : Int
deriving DecidableEq, Repr

/-- The cache state at process start: `cachedPeriod` is the nil pointer. -/
def Cache.init : Cache := ⟨none, 0⟩

/-- `SELECT ... FROM periods WHERE is_active = true LIMIT 1`: the first
stored row with the active flag set (row order unspecified by SQL; the
model uses storage order). -/
def findActive (db : DB) : Option PeriodRow :=
  db.periods.find? (fun p => p.isActive)

/-- The generated label `time.Now().Format("Period 2006-01-02 15:04")`:
a string determined by the current instant. -/
def periodLabel (now : Int) : String :=
  "Period " ++ toString now

/-- The freshly inserted period row:
`INSERT INTO periods (name, start_time, is_active) VALUES ($1, NOW(), true)`. -/
def freshPeriod (now : Int) (db : DB) : PeriodRow :=
  ⟨db.nextPeriodId, periodLabel now, now, none, true⟩

/-- `UPDATE periods SET is_active = false, end_time = $1 WHERE id = $2`. -/
def closePeriod (pid : Nat) (now : Int) (periods : List PeriodRow) : List PeriodRow :=
  periods.map (fun q => if q.id = pid then { q with isActive := false, endTime := some now } else q)

/-- The value returned by `GetOrCreateActivePeriod`: the resolved period
and the cache and database states after the call. -/
structure ResolveResult where
  period : PeriodRow
  cache : Cache
  db : DB
deriving DecidableEq, Repr

/-- The transaction body of `GetOrCreateActivePeriod` once the cache has
been bypassed: read the active row; if it is younger than 24 hours return
it, otherwise close it and insert a fresh active row; if there is none,
just insert a fresh active row. -/
def resolveAgainstStore (now : Int) (db : DB) : ResolveResult :=
  match findActive db with
  | some p =>
    if now - p.startTime < daySec then
      { period := p, cache := ⟨some p, now⟩, db := db }
    else
      let db1 : DB := { db with periods := closePeriod p.id now db.periods }
      let pNew := freshPeriod now db1
      { period := pNew
        cache := ⟨some pNew, now⟩
        db := { db1 with periods := db1.periods ++ [pNew], nextPeriodId := db1.nextPeriodId + 1 } }
  | none =>
    let pNew := freshPeriod now db
    { period := pNew
      cache := ⟨some pNew, now⟩
      db := { db with periods := db.periods ++ [pNew], nextPeriodId := db.nextPeriodId + 1 } }

/-- `GetOrCreateActivePeriod`: return the cached period when it was checked
within the last minute, otherwise resolve against the store. -/
def getOrCreateActivePeriod (now : Int) (cache : Cache) (db : DB) : ResolveResult :=
  match cache.cachedPeriod with
  | some p =>
    if now - cache.lastPeriodCheck < minuteSec then
      { period := p, cache := cache, db := db }
    else resolveAgainstStore now db
  | none => resolveAgainstStore now db

/-- Outcome of a mutating HTTP handler, by status class: `ok` is the 2xx
reply, `invalidInput` is 400, `notFound` is 404, `methodNotAllowed` 405,
`serverError` 500. -/
inductive HStatus where
  | ok
  | invalidInput
  | notFound
  | methodNotAllowed
  | serverError
deriving DecidableEq, Repr

/-- Go's `strings.TrimSpace(s) == ""` test: every character of the string
is white space. -/
def isBlank (s : String) : Bool :=
  s.toList.all (fun c => c = ' ' ∨ c = '\t' ∨ c = '\n' ∨ c = '\r')

/-- `SELECT period_id FROM teams WHERE id = $1` (`QueryRow.Scan`: `none`
models `sql.ErrNoRows`). -/
def lookupTeamPeriod (db : DB) (tid : Nat) : Option Nat :=
  (db.teams.find? (fun t => t.id = tid)).map (fun t => t.periodId)

/-- `addTeamHandler`: the upsert
`INSERT INTO teams (name, period_id) VALUES ($1, $2)
 ON CONFLICT (name, period_id) DO UPDATE SET name = EXCLUDED.name
 RETURNING id, name`, against an already-resolved period. -/
def upsertTeam (db : DB) (periodId : Nat) (name : String) : (Nat × String) × DB :=
  match db.teams.find? (fun t => t.name = name ∧ t.periodId = periodId) with
  | some t =>
    ((t.id, name),
      { db with teams := db.teams.map (fun u => if u.id = t.id then { u with name := name } else u) })
  | none =>
    ((db.nextTeamId, name),
      { db with teams := db.teams ++ [⟨db.nextTeamId, name, periodId⟩],
                nextTeamId := db.nextTeamId + 1 })

/-- The body of `addTeamHandler` after a successful JSON decode: reject a
blank name, resolve the active period, then upsert. -/
def addTeamHandler (now : Int) (cache : Cache) (db : DB) (name : String) :
    HStatus × Option (Nat × String) × Cache × DB :=
  if isBlank name then (.invalidInput, none, cache, db)
  else
    let r := getOrCreateActivePeriod now cache db
    let (team, db2) := upsertTeam r.db r.period.id name
    (.ok, some team, r.cache, db2)

/-- The decoded body of `/api/add-match`. -/
structure AddMatchReq where
  team1Id : Nat
  team2Id : Nat
  score1 : Int
  score2 : Int
deriving DecidableEq, Repr

/-- The body of `addMatchHandler` after a successful JSON decode: the
zero/equality check on the team ids, then period resolution, the two team
lookups, the same-period checks, and the insert. -/
def addMatchHandler (now : Int) (cache : Cache) (db : DB) (req : AddMatchReq) :
    HStatus × Cache × DB :=
  if req.team1Id = 0 ∨ req.team2Id = 0 ∨ req.team1Id = req.team2Id then
    (.invalidInput, cache, db)
  else
    let r := getOrCreateActivePeriod now cache db
    match lookupTeamPeriod r.db req.team1Id with
    | none => (.invalidInput, r.cache, r.db)
    | some pid1 =>
      match lookupTeamPeriod r.db req.team2Id with
      | none => (.invalidInput, r.cache, r.db)
      | some pid2 =>
        if pid1 ≠ pid2 then (.invalidInput, r.cache, r.db)
        else if pid1 ≠ r.period.id then (.invalidInput, r.cache, r.db)
        else
          let m : MatchRow :=
            ⟨r.db.nextMatchId, req.team1Id, req.team2Id, req.score1, req.score2, now, r.period.id⟩
          (.ok, r.cache,
            { r.db with matchRows := r.db.matchRows ++ [m], nextMatchId := r.db.nextMatchId + 1 })

/-- Predicate of the scoped delete
`DELETE FROM matches WHERE id = $1 AND period_id = $2`. -/
def matchTargeted (reqId pid : Nat) (m : MatchRow) : Bool :=
  m.id = reqId ∧ m.periodId = pid

/-- The body of `deleteMatchHandler` after a successful JSON decode: reject
id 0, resolve the active period, run the scoped delete, and report 404 when
no row was affected. -/
def deleteMatchHandler (now : Int) (cache : Cache) (db : DB) (reqId : Nat) :
    HStatus × Cache × DB :=
  if reqId = 0 then (.invalidInput, cache, db)
  else
    let r := getOrCreateActivePeriod now cache db
    let removed := r.db.matchRows.countP (matchTargeted reqId r.period.id)
    let db2 : DB :=
      { r.db with matchRows := r.db.matchRows.filter (fun m => ¬ matchTargeted reqId r.period.id m) }
    if removed = 0 then (.notFound, r.cache, db2) else (.ok, r.cache, db2)

/-- Predicate of the scoped delete
`DELETE FROM players USING teams WHERE players.team_id = teams.id AND
 players.name = $1 AND players.team_id = $2 AND teams.period_id = $3`:
the row joins to a team of the resolved period. -/
def playerTargeted (db : DB) (name : String) (teamId pid : Nat) (p : PlayerRow) : Bool :=
  p.name = name ∧ p.teamId = teamId ∧
    db.teams.any (fun t => t.id = p.teamId ∧ t.periodId = pid)

/-- The body of `deletePlayerHandler` after a successful JSON decode:
reject team id 0 or a blank name, resolve the active period, run the
join-scoped delete, and report 404 when no row was affected. -/
def deletePlayerHandler (now : Int) (cache : Cache) (db : DB)
    (name : String) (teamId : Nat) : HStatus × Cache × DB :=
  if teamId = 0 ∨ isBlank name then (.invalidInput, cache, db)
  else
    let r := getOrCreateActivePeriod now cache db
    let removed := r.db.players.countP (playerTargeted r.db name teamId r.period.id)
    let db2 : DB :=
      { r.db with players := r.db.players.filter (fun p => ¬ playerTargeted r.db name teamId r.period.id p) }
    if removed = 0 then (.notFound, r.cache, db2) else (.ok, r.cache, db2)

/-- The body of `addPlayerHandler` after a successful JSON decode: reject
team id 0 or a blank name, resolve the active period, reject a team that is
unknown or outside the resolved period, then run the upsert
`INSERT INTO players (name, team_id, goals, assists) VALUES ($1,$2,$3,$4)
 ON CONFLICT (name, team_id) DO UPDATE SET goals = EXCLUDED.goals,
 assists = EXCLUDED.assists`. -/
def addPlayerHandler (now : Int) (cache : Cache) (db : DB)
    (name : String) (teamId : Nat) (goals assists : Int) : HStatus × Cache × DB :=
  if teamId = 0 ∨ isBlank name then (.invalidInput, cache, db)
  else
    let r := getOrCreateActivePeriod now cache db
    match lookupTeamPeriod r.db teamId with
    | none => (.invalidInput, r.cache, r.db)
    | some pid =>
      if pid ≠ r.period.id then (.invalidInput, r.cache, r.db)
      else
        match r.db.players.find? (fun p => p.name = name ∧ p.teamId = teamId) with
        | some q =>
          (.ok, r.cache,
            { r.db with players := r.db.players.map (fun u =>
                if u.id = q.id then { u with goals := goals, assists := assists } else u) })
        | none =>
          (.ok, r.cache,
            { r.db with players := r.db.players ++ [⟨r.db.nextPlayerId, name, teamId, goals, assists⟩],
                        nextPlayerId := r.db.nextPlayerId + 1 })

/-! ## The player listing (`listPlayersHandler`)

`SELECT p.name, p.team_id, p.goals, p.assists FROM players p
 JOIN teams t ON p.team_id = t.id WHERE t.period_id = $1
 ORDER BY (p.goals + p.assists) DESC, p.goals DESC`

The `ORDER BY` names two sort keys and no further tiebreak, so the row
order among players tying on both keys is not determined; the result set
is modelled as a relation: any permutation of the period's player rows
that is pairwise non-increasing on the key pair is a possible reply. -/

/-- The sort key of the `ORDER BY` clause: `(goals + assists, goals)`. -/
def playerKey (p : PlayerRow) : Int × Int := (p.goals + p.assists, p.goals)

/-- `x` may come no later than `y` under
`ORDER BY (goals+assists) DESC, goals DESC`. -/
def keyGE (x y : Int × Int) : Prop :=
  y.1 < x.1 ∨ (x.1 = y.1 ∧ y.2 ≤ x.2)

instance : DecidablePred fun x : (Int × Int) × (Int × Int) => keyGE x.1 x.2 :=
  fun x => by unfold keyGE; infer_instance

instance (x y : Int × Int) : Decidable (keyGE x y) := by unfold keyGE; infer_instance

instance : DecidableRel keyGE := fun x y => by unfold keyGE; infer_instance

instance : IsAntisymm (Int × Int) keyGE := by
  constructor
  rintro ⟨a1, a2⟩ ⟨b1, b2⟩ h1 h2
  unfold keyGE at h1 h2
  simp only at h1 h2
  rcases h1 with h1 | ⟨h1e, h1le⟩ <;> rcases h2 with h2 | ⟨h2e, h2le⟩ <;>
    rw [Prod.mk.injEq] <;> constructor <;> omega

/-- The rows selected by the join: players whose team belongs to the
given period. -/
def periodPlayers (db : DB) (periodId : Nat) : List PlayerRow :=
  db.players.filter (fun p => db.teams.any (fun t => t.id = p.teamId ∧ t.periodId = periodId))

/-- `out` is a possible reply of `listPlayersHandler` for the resolved
period: a permutation of the period's player rows, non-increasing in the
key pair `(goals+assists, goals)`. -/
def listPlayersOutcome (db : DB) (periodId : Nat) (out : List PlayerRow) : Prop :=
  out.Perm (periodPlayers db periodId) ∧
    out.Pairwise (fun a b => keyGE (playerKey a) (playerKey b))

/-- Lexicographic order on strings by character code, used to state the
spec's "name ascending" tiebreak. -/
def nameLe (a b : String) : Prop :=
  List.Lex (fun c d : Char => c.toNat < d.toNat) a.toList b.toList ∨ a.toList = b.toList

instance (a b : String) : Decidable (nameLe a b) := by unfold nameLe; exact instDecidableOr

/-- The ordering the specification claims for `listPlayers`:
`(goals+assists)` descending, then `goals` descending, then name
ascending. -/
def specLeq (a b : PlayerRow) : Prop :=
  b.goals + b.assists < a.goals + a.assists ∨
    (a.goals + a.assists = b.goals + b.assists ∧
      (b.goals < a.goals ∨ (a.goals = b.goals ∧ nameLe a.name b.name)))

instance (a b : PlayerRow) : Decidable (specLeq a b) := by unfold specLeq; infer_instance

instance : DecidableRel specLeq := fun a b => by unfold specLeq; infer_instance

/-- `out` is ordered the way the specification describes. -/
def specOrdered (out : List PlayerRow) : Prop :=
  out.Pairwise specLeq

instance (out : List PlayerRow) : Decidable (specOrdered out) := by
  unfold specOrdered; infer_instance

/-! ## Period lookup by calendar date (`periodFromRequest`, `findPeriodByDate`) -/

/-- Whether a year is a leap year (Gregorian rule). -/
def isLeapYear (y : Int) : Bool :=
  (y % 4 = 0 ∧ y % 100 ≠ 0) ∨ y % 400 = 0

/-- Days in a month, as Go's `time.Parse` validates them. -/
def daysInMonth (y : Int) (m : Nat) : Nat :=
  if m = 2 then (if isLeapYear y then 29 else 28)
  else if m = 4 ∨ m = 6 ∨ m = 9 ∨ m = 11 then 30
  else 31

/-- A parsed calendar date. -/
structure Date where
  year : Int
  month : Nat
  day : Nat
deriving DecidableEq, Repr

/-- Digit value of a character. -/
def digitVal (c : Char) : Nat := c.toNat - '0'.toNat

/-- `time.Parse("2006-01-02", s)`: exactly four digits, a dash, two
digits, a dash, two digits, nothing else; month and day range-checked
(Go rejects month 0 or 13 and a day outside the month). `none` models the
parse error. -/
def parseGoDate (s : String) : Option Date :=
  match s.toList with
  | [a, b, c, d, h1, e, f, h2, g, h] =>
    if (h1 = '-' ∧ h2 = '-' ∧ [a, b, c, d, e, f, g, h].all Char.isDigit : Bool) then
      let y : Int := Int.ofNat (((digitVal a * 10 + digitVal b) * 10 + digitVal c) * 10 + digitVal d)
      let m : Nat := digitVal e * 10 + digitVal f
      let dd : Nat := digitVal g * 10 + digitVal h
      if 1 ≤ m ∧ m ≤ 12 ∧ 1 ≤ dd ∧ dd ≤ daysInMonth y m then some ⟨y, m, dd⟩ else none
    else none
  | _ => none

/-- Days from the epoch 1970-01-01 to the given civil date (proleptic
Gregorian); the standard days-from-civil computation, written with
Lean's floor-convention `Int` division. -/
def daysFromCivil (dt : Date) : Int :=
  let y : Int := if dt.month ≤ 2 then dt.year - 1 else dt.year
  let era : Int := y / 400
  let yoe : Int := y - era * 400
  let mp : Int := (Int.ofNat dt.month + 9) % 12
  let doy : Int := (153 * mp + 2) / 5 + (Int.ofNat dt.day - 1)
  let doe : Int := yoe * 365 + yoe / 4 - yoe / 100 + doy
  era * 146097 + doe - 719468

/-- `time.Date(year, month, day, 0, 0, 0, 0, time.UTC)` as model seconds. -/
def dateStartUTC (dt : Date) : Int := 86400 * daysFromCivil dt

/-- `findPeriodByDate`:
`SELECT ... FROM periods WHERE start_time >= $1 AND start_time < $2
 ORDER BY start_time DESC LIMIT 1` with `$1` the UTC midnight of the date
and `$2` one day later.  The row with the greatest start time among those
in the window (first such row on a tie). -/
def findPeriodByDate (db : DB) (dt : Date) : Option PeriodRow :=
  let s := dateStartUTC dt
  (db.periods.filter (fun p => s ≤ p.startTime ∧ p.startTime < s + 86400)).foldl
    (fun acc p =>
      match acc with
      | none => some p
      | some q => if q.startTime < p.startTime then some p else some q)
    none

/-- The two error conditions `periodFromRequest` can surface:
`invalidInput` is the wrapped date-parse error, `noRows` is
`sql.ErrNoRows` escaping from `findPeriodByDate`. -/
inductive ResolveErr where
  | invalidInput
  | noRows
deriving DecidableEq, Repr

/-- How the listing handlers (`listMatchesHandler` and the others) map a
`periodFromRequest` error to an HTTP status: 404 for `sql.ErrNoRows`,
400 otherwise. -/
def statusOfResolveErr : ResolveErr → Nat
  | .invalidInput => 400
  | .noRows => 404

/-- `strings.TrimSpace`: drop white space at both ends. -/
def goTrimSpace (s : String) : String :=
  String.mk
    (((s.toList.dropWhile fun c => (c = ' ' ∨ c = '\t' ∨ c = '\n' ∨ c = '\r' : Bool)).reverse.dropWhile
      fun c => (c = ' ' ∨ c = '\t' ∨ c = '\n' ∨ c = '\r' : Bool)).reverse)

/-- `periodFromRequest`: an empty (after trimming) `period` query
parameter resolves the current period; otherwise the parameter must parse
as `YYYY-MM-DD` and the stored period covering that date is looked up,
never created. -/
def periodFromRequest (now : Int) (cache : Cache) (db : DB) (param : String) :
    Except ResolveErr PeriodRow × Cache × DB :=
  let s := goTrimSpace param
  if s = "" then
    let r := getOrCreateActivePeriod now cache db
    (.ok r.period, r.cache, r.db)
  else
    match parseGoDate s with
    | none => (.error .invalidInput, cache, db)
    | some dt =>
      match findPeriodByDate db dt with
      | none => (.error .noRows, cache, db)
      | some p => (.ok p, cache, db)

/-! ## The rotation race (`GetOrCreateActivePeriod` under concurrency)

The transaction runs at the driver's default isolation level
(`db.BeginTx(ctx, nil)`, READ COMMITTED).  Split into its read phase
(the `SELECT ... WHERE is_active = true` and the staleness decision) and
its commit phase (the writes applied to the committed store state).  The
`init.sql` schema places no unique index or exclusion constraint on
`periods` beyond the primary key, so the only check an insert must pass
is id freshness. -/

/-- What a `GetOrCreateActivePeriod` transaction decides to write, as a
function of the rows its `SELECT` saw. -/
inductive TxWrites where
  | keep
  | rotate (oldId : Nat)
  | create
deriving DecidableEq, Repr

/-- The read phase: the staleness decision of the transaction body,
applied to the committed state the `SELECT` saw. -/
def txDecide (now : Int) (db : DB) : TxWrites :=
  match findActive db with
  | some p => if now - p.startTime < daySec then .keep else .rotate p.id
  | none => .create

/-- The commit phase: the transaction's writes applied to the committed
state at commit time (the `SERIAL` id is assigned by the insert). -/
def txCommit (now : Int) (w : TxWrites) (db : DB) : DB :=
  match w with
  | .keep => db
  | .rotate oldId =>
    let db1 : DB := { db with periods := closePeriod oldId now db.periods }
    { db1 with periods := db1.periods ++ [freshPeriod now db1], nextPeriodId := db1.nextPeriodId + 1 }
  | .create =>
    { db with periods := db.periods ++ [freshPeriod now db], nextPeriodId := db.nextPeriodId + 1 }

/-- The only constraint the `init.sql` `periods` table imposes on an
insert: primary-key freshness.  There is no `UNIQUE` partial index over
`is_active` and no range-exclusion constraint
(`idx_periods_active` is a plain, non-unique index). -/
def periodInsertAllowed (db : DB) (row : PeriodRow) : Prop :=
  ∀ q ∈ db.periods, q.id ≠ row.id

instance (db : DB) (row : PeriodRow) : Decidable (periodInsertAllowed db row) :=
  List.decidableBAll _ db.periods

/-- `[start, end)` windows of two period rows overlap, as a boolean; a
null `end_time` is an unbounded window. -/
def periodsOverlapB (p q : PeriodRow) : Bool :=
  match p.endTime, q.endTime with
  | none, none => true
  | none, some e2 => p.startTime < e2
  | some e1, none => q.startTime < e1
  | some e1, some e2 => p.startTime < e2 ∧ q.startTime < e1

/-- `[start, end)` windows of two period rows overlap. -/
def periodsOverlap (p q : PeriodRow) : Prop :=
  periodsOverlapB p q = true

instance (p q : PeriodRow) : Decidable (periodsOverlap p q) :=
  inferInstanceAs (Decidable (periodsOverlapB p q = true))

/-- Number of rows with `is_active = true`. -/
def activeCount (db : DB) : Nat :=
  db.periods.countP (fun p => p.isActive)

/-! ## The in-process cache under concurrency (`cachedPeriod`, `lastPeriodCheck`)

`GetOrCreateActivePeriod` publishes its result with two separate
assignments, `cachedPeriod = &p` and then `lastPeriodCheck = time.Now()`,
with no mutex or atomic around them; a concurrent request reads the same
two globals in its fast-path test.  Model each assignment as one step and
look at what a reader interleaved between the steps observes. -/

/-- A single store to one of the two cache globals. -/
inductive CacheStep where
  | setPeriod (p : PeriodRow)
  | setCheck (t : Int)
deriving DecidableEq, Repr

/-- Effect of one store. -/
def applyCacheStep (c : Cache) : CacheStep → Cache
  | .setPeriod p => { c with cachedPeriod := some p }
  | .setCheck t => { c with lastPeriodCheck := t }

/-- The store sequence the writer executes when publishing period `p` at
time `t`: `cachedPeriod = &p; lastPeriodCheck = time.Now()`. -/
def cacheWriteSeq (p : PeriodRow) (t : Int) : List CacheStep :=
  [.setPeriod p, .setCheck t]

/-- The cache states a concurrent reader can observe while the writer runs:
the state after each prefix of the writer's stores. -/
def observableStates (c : Cache) : List CacheStep → List Cache
  | [] => [c]
  | s :: rest => c :: observableStates (applyCacheStep c s) rest

/-! ## Schema invariants used as hypotheses -/

/-- The `teams` table constraints: the `SERIAL` primary key and the
`UNIQUE (name, period_id)` composite key. -/
def teamsUnique (db : DB) : Prop :=
  db.teams.Pairwise (fun a b => a.id ≠ b.id ∧ (a.name ≠ b.name ∨ a.periodId ≠ b.periodId))

instance (db : DB) : Decidable (teamsUnique db) := by
  unfold teamsUnique; exact List.instDecidablePairwise db.teams

/-- `SERIAL` freshness for teams: no stored row already carries the next
sequence value. -/
def teamIdsFresh (db : DB) : Prop :=
  ∀ t ∈ db.teams, t.id ≠ db.nextTeamId

instance (db : DB) : Decidable (teamIdsFresh db) :=
  List.decidableBAll _ db.teams

/-- The `matches` primary key: stored ids are pairwise distinct. -/
def matchIdsUnique (db : DB) : Prop :=
  db.matchRows.Pairwise (fun a b => a.id ≠ b.id)

instance (db : DB) : Decidable (matchIdsUnique db) := by
  unfold matchIdsUnique; exact List.instDecidablePairwise db.matchRows

/-! ## Concrete states used in counterexamples and witnesses -/

/-- A freshly initialised, empty store. -/
def emptyDb : DB := ⟨[], [], [], [], 1, 1, 1, 1⟩

/-- A store holding one active period that started at time 0. -/
def staleDb : DB := ⟨[⟨1, "p1", 0, none, true⟩], [], [], [], 2, 1, 1, 1⟩

/-- A cache that was (re)checked twenty seconds before the period's
24-hour boundary, holding the still-active period of `staleDb`. -/
def warmCache : Cache := ⟨some ⟨1, "p1", 0, none, true⟩, daySec - 20⟩

/-- First committed state of the rotation race on `emptyDb`: the first
transaction has committed, the second has read but not committed. -/
def raceMid : DB := txCommit 50 (txDecide 50 emptyDb) emptyDb

/-- Final committed state of the rotation race: both transactions, having
each read the empty store, have committed. -/
def raceFinal : DB := txCommit 50 (txDecide 50 emptyDb) raceMid

/-- A store whose single team belongs to a period other than the active
one: period 1 is active, team 5 carries period id 2. -/
def crossDb : DB := ⟨[⟨1, "P1", 0, none, true⟩], [⟨5, "A", 2⟩], [], [], 2, 6, 1, 1⟩

/-- A store with an active period 1 and historical data in the closed
period 2: a team, a player and a match all owned by period 2. -/
def frameDb : DB :=
  ⟨[⟨1, "cur", 0, none, true⟩, ⟨2, "old", -200, some (-100), false⟩],
   [⟨1, "T1", 1⟩, ⟨2, "T2", 2⟩],
   [⟨1, "N", 2, 0, 0⟩],
   [⟨7, 2, 2, 0, 0, -150, 2⟩],
   3, 3, 2, 8⟩

/-- Two players tying on both sort keys of the `ORDER BY` clause, stored
with the lexicographically larger name first. -/
def playerTieB : PlayerRow := ⟨1, "b", 1, 1, 0⟩

/-- The lexicographically smaller-named of the two tying players. -/
def playerTieA : PlayerRow := ⟨2, "a", 1, 1, 0⟩

/-- A store for the tie counterexample: one period, one team, the two
tying players stored larger-name-first. -/
def tieDb : DB :=
  ⟨[⟨1, "p", 0, none, true⟩], [⟨1, "T", 1⟩], [playerTieB, playerTieA], [], 2, 2, 3, 1⟩

/-- Player A of the specification's ranking example: 3 goals, 1 assist. -/
def specPlayerA : PlayerRow := ⟨1, "A", 1, 3, 1⟩

/-- Player B of the specification's ranking example: 2 goals, 2 assists. -/
def specPlayerB : PlayerRow := ⟨2, "B", 1, 2, 2⟩

/-- Player C of the specification's ranking example: 3 goals, 0 assists. -/
def specPlayerC : PlayerRow := ⟨3, "C", 1, 3, 0⟩

/-- A store holding the ranking example's players in a scrambled order. -/
def rankDb : DB :=
  ⟨[⟨1, "p", 0, none, true⟩], [⟨1, "T", 1⟩], [specPlayerB, specPlayerC, specPlayerA], [], 2, 2, 4, 1⟩

/-- The period the cache held before the rotation being published. -/
def cacheOldPeriod : PeriodRow := ⟨1, "old", 0, none, true⟩

/-- The period the writer is publishing. -/
def cacheNewPeriod : PeriodRow := ⟨2, "new", 100, none, true⟩

/-- The cache before the writer's two stores. -/
def cachePre : Cache := ⟨some cacheOldPeriod, 40⟩

/-- The cache after both of the writer's stores. -/
def cachePost : Cache := ⟨some cacheNewPeriod, 160⟩

/-- The torn state: the new period paired with the old check timestamp. -/
def cacheTorn : Cache := ⟨some cacheNewPeriod, 40⟩

/-! # Shared lemmas -/

/-- Period resolution only touches the `periods` table: teams, players,
matches and their sequences are untouched by `resolveAgainstStore`. -/
theorem resolveAgainstStore_frame (now : Int) (db : DB) :
    (resolveAgainstStore now db).db.teams = db.teams ∧
    (resolveAgainstStore now db).db.players = db.players ∧
    (resolveAgainstStore now db).db.matchRows = db.matchRows ∧
    (resolveAgainstStore now db).db.nextTeamId = db.nextTeamId ∧
    (resolveAgainstStore now db).db.nextPlayerId = db.nextPlayerId ∧
    (resolveAgainstStore now db).db.nextMatchId = db.nextMatchId := by
  unfold resolveAgainstStore
  cases findActive db with
  | none => simp
  | some p => by_cases h : now - p.startTime < daySec <;> simp [h]

/-- `GetOrCreateActivePeriod` only touches the `periods` table. -/
theorem getOrCreate_frame (now : Int) (cache : Cache) (db : DB) :
    (getOrCreateActivePeriod now cache db).db.teams = db.teams ∧
    (getOrCreateActivePeriod now cache db).db.players = db.players ∧
    (getOrCreateActivePeriod now cache db).db.matchRows = db.matchRows ∧
    (getOrCreateActivePeriod now cache db).db.nextTeamId = db.nextTeamId ∧
    (getOrCreateActivePeriod now cache db).db.nextPlayerId = db.nextPlayerId ∧
    (getOrCreateActivePeriod now cache db).db.nextMatchId = db.nextMatchId := by
  unfold getOrCreateActivePeriod
  cases cache.cachedPeriod with
  | none => exact resolveAgainstStore_frame now db
  | some p =>
    by_cases h : now - cache.lastPeriodCheck < minuteSec
    · simp [h]
    · simpa [h] using resolveAgainstStore_frame now db

/-- With a cold cache (empty, or last checked at least a minute ago) the
call goes to the store. -/
theorem getOrCreate_cold (now : Int) (cache : Cache) (db : DB)
    (h : cache.cachedPeriod = none ∨ minuteSec ≤ now - cache.lastPeriodCheck) :
    getOrCreateActivePeriod now cache db = resolveAgainstStore now db := by
  unfold getOrCreateActivePeriod
  cases hc : cache.cachedPeriod with
  | none => rfl
  | some p =>
    have hge : minuteSec ≤ now - cache.lastPeriodCheck := by
      rcases h with h | h
      · rw [hc] at h; cases h
      · exact h
    simp [not_lt.mpr hge]

/-- Splitting a resolution transaction into its read and commit phases
agrees with the one-shot definition on the store state. -/
theorem resolve_eq_tx (now : Int) (db : DB) :
    (resolveAgainstStore now db).db = txCommit now (txDecide now db) db := by
  unfold resolveAgainstStore txDecide txCommit
  cases findActive db with
  | none => rfl
  | some p => by_cases h : now - p.startTime < daySec <;> simp [h]

/-- Team lookups depend only on the `teams` table. -/
theorem lookupTeamPeriod_congr {db1 db2 : DB} (h : db1.teams = db2.teams) (tid : Nat) :
    lookupTeamPeriod db1 tid = lookupTeamPeriod db2 tid := by
  unfold lookupTeamPeriod; rw [h]

/-- In a list whose elements pairwise exclude a predicate holding twice,
an element satisfying the predicate makes the predicate's count one. -/
theorem countP_eq_one_of_pairwise {α : Type} {l : List α} {pred : α → Bool}
    (h : l.Pairwise (fun a b => ¬(pred a = true ∧ pred b = true)))
    {t : α} (ht : t ∈ l) (hp : pred t = true) :
    l.countP pred = 1 := by
  induction l with
  | nil => cases ht
  | cons u rest ih =>
    rcases List.pairwise_cons.mp h with ⟨hu, hrest⟩
    rcases List.mem_cons.mp ht with rfl | htr
    · have hz : rest.countP pred = 0 := by
        rw [List.countP_eq_zero]
        intro b hb hbp
        exact hu b hb ⟨hp, hbp⟩
      rw [List.countP_cons_of_pos _ _ hp, hz]
    · have hup : ¬ pred u = true := fun hpu => hu t htr ⟨hpu, hp⟩
      rw [List.countP_cons_of_neg _ _ hup]
      exact ih hrest htr

/-- A predicate counted zero times filters to the whole list when negated. -/
theorem filter_not_eq_self_of_countP_zero {α : Type} {l : List α} {pred : α → Bool}
    (h : l.countP pred = 0) :
    l.filter (fun a => ¬ pred a = true) = l := by
  rw [List.filter_eq_self]
  intro a ha
  have := (List.countP_eq_zero.mp h) a ha
  simpa using this

/-! # Claims -/

/-- C1: the claim says that under every sequence of concurrent
`GetOrCreateActivePeriod` calls at most one period row is ever active and
no two period windows overlap.  The code violates it: two transactions at
the driver's default READ COMMITTED level that both run their
`SELECT ... WHERE is_active = true` on the empty store before either
commits both decide to insert; the `init.sql` schema has no unique index
over `is_active` and no range-exclusion constraint (only the primary key),
so both inserts are allowed, and the committed store ends with two active,
overlapping period rows. -/
theorem rotation_race_two_active_periods :
    periodInsertAllowed emptyDb (freshPeriod 50 emptyDb) ∧
    periodInsertAllowed raceMid (freshPeriod 50 raceMid) ∧
    activeCount raceFinal = 2 ∧
    ∃ p ∈ raceFinal.periods, ∃ q ∈ raceFinal.periods,
      p.id ≠ q.id ∧ p.isActive = true ∧ q.isActive = true ∧ periodsOverlap p q := by
  decide

/-- C9: the claim says `cachedPeriod` and `lastPeriodCheck` are only
accessed under mutual exclusion or an atomic swap, so no torn pair is
observable.  The code writes the two globals with two separate unguarded
assignments; a reader interleaved between them observes the new period
paired with the old check timestamp — a state that is neither the
pre-write nor the post-write cache value. -/
theorem cache_write_torn_state :
    observableStates cachePre (cacheWriteSeq cacheNewPeriod 160) =
      [cachePre, cacheTorn, cachePost] ∧
    cacheTorn ≠ cachePre ∧ cacheTorn ≠ cachePost := by
  decide

/-- C6: a match request whose two team ids coincide is rejected with
InvalidInput (HTTP 400) before the period is even resolved, whatever the
scores and whatever the store state; store and cache are returned
untouched. -/
theorem addMatch_self_rejected (now : Int) (cache : Cache) (db : DB) (req : AddMatchReq)
    (h : req.team1Id = req.team2Id) :
    addMatchHandler now cache db req = (.invalidInput, cache, db) := by
  unfold addMatchHandler
  rw [if_pos (Or.inr (Or.inr h))]

/-- C6 witness: the self-match rejection evaluated at a concrete request. -/
theorem addMatch_self_rejected_witness :
    addMatchHandler 0 Cache.init emptyDb ⟨3, 3, 1, 2⟩ = (.invalidInput, Cache.init, emptyDb) :=
  addMatch_self_rejected 0 Cache.init emptyDb ⟨3, 3, 1, 2⟩ rfl

/-- C2 counterexample: the claim as stated covers every call, but a call
that hits the sub-minute cache fast path returns a stale active period
unchanged.  Here the active row is more than 24 hours old (started at 0,
now is `daySec + 10`), the cache was refreshed twenty seconds before the
boundary, and the call neither sets the end boundary nor inserts a new
period — it returns the stale row and leaves store and cache untouched. -/
theorem stale_period_returned_from_warm_cache :
    findActive staleDb = some ⟨1, "p1", 0, none, true⟩ ∧
    daySec < (daySec + 10) - (0 : Int) ∧
    getOrCreateActivePeriod (daySec + 10) warmCache staleDb =
      { period := ⟨1, "p1", 0, none, true⟩, cache := warmCache, db := staleDb } := by
  decide

/-- C2 (amended): provided the call consults the store — the cache is
empty or its last check is at least one minute old — then: with no active
row, a fresh active period starting now with the generated label is
inserted and returned; with an active row whose age is at least 24 hours,
that row gets its end boundary set to now and its active flag cleared, and
a fresh active period starting now is inserted and returned; with a
younger active row, that row is returned and the store is unchanged. -/
theorem getOrCreateActivePeriod_rotation (now : Int) (cache : Cache) (db : DB)
    (hcold : cache.cachedPeriod = none ∨ minuteSec ≤ now - cache.lastPeriodCheck) :
    (findActive db = none →
      (getOrCreateActivePeriod now cache db).period =
          ⟨db.nextPeriodId, periodLabel now, now, none, true⟩ ∧
      (getOrCreateActivePeriod now cache db).db.periods =
          db.periods ++ [(getOrCreateActivePeriod now cache db).period]) ∧
    (∀ p, findActive db = some p → daySec ≤ now - p.startTime →
      (getOrCreateActivePeriod now cache db).period =
          ⟨db.nextPeriodId, periodLabel now, now, none, true⟩ ∧
      (getOrCreateActivePeriod now cache db).db.periods =
          closePeriod p.id now db.periods ++ [(getOrCreateActivePeriod now cache db).period]) ∧
    (∀ p, findActive db = some p → now - p.startTime < daySec →
      getOrCreateActivePeriod now cache db = ⟨p, ⟨some p, now⟩, db⟩) := by
  rw [getOrCreate_cold now cache db hcold]
  refine ⟨?_, ?_, ?_⟩
  · intro h
    unfold resolveAgainstStore
    rw [h]
    exact ⟨rfl, rfl⟩
  · intro p hp hstale
    unfold resolveAgainstStore
    rw [hp]
    simp [not_lt.mpr hstale, freshPeriod]
  · intro p hp hfresh
    unfold resolveAgainstStore
    rw [hp]
    simp [hfresh]

/-- C2 witness: rotating the stale period of `staleDb` at `2 * daySec`
with the initial (empty) cache. -/
theorem getOrCreateActivePeriod_rotation_witness :
    (getOrCreateActivePeriod (2 * daySec) Cache.init staleDb).period =
        ⟨staleDb.nextPeriodId, periodLabel (2 * daySec), 2 * daySec, none, true⟩ ∧
    (getOrCreateActivePeriod (2 * daySec) Cache.init staleDb).db.periods =
        closePeriod 1 (2 * daySec) staleDb.periods ++
          [(getOrCreateActivePeriod (2 * daySec) Cache.init staleDb).period] :=
  (getOrCreateActivePeriod_rotation (2 * daySec) Cache.init staleDb (Or.inl rfl)).2.1
    ⟨1, "p1", 0, none, true⟩ (by decide) (by decide)

/-- C5: whenever a referenced team is unknown, or the two teams' stored
periods differ from each other, or either differs from the period the call
resolves, `addMatchHandler` replies InvalidInput (HTTP 400) and the
`matches` table is left exactly as it was. -/
theorem addMatch_validation (now : Int) (cache : Cache) (db : DB) (req : AddMatchReq)
    (hcond :
      lookupTeamPeriod db req.team1Id = none ∨
      lookupTeamPeriod db req.team2Id = none ∨
      lookupTeamPeriod db req.team1Id ≠ lookupTeamPeriod db req.team2Id ∨
      lookupTeamPeriod db req.team1Id ≠ some (getOrCreateActivePeriod now cache db).period.id ∨
      lookupTeamPeriod db req.team2Id ≠ some (getOrCreateActivePeriod now cache db).period.id) :
    (addMatchHandler now cache db req).1 = .invalidInput ∧
    (addMatchHandler now cache db req).2.2.matchRows = db.matchRows := by
  obtain ⟨hteams, -, hmr, -, -, -⟩ := getOrCreate_frame now cache db
  have hl1e := lookupTeamPeriod_congr hteams req.team1Id
  have hl2e := lookupTeamPeriod_congr hteams req.team2Id
  unfold addMatchHandler
  by_cases h0 : req.team1Id = 0 ∨ req.team2Id = 0 ∨ req.team1Id = req.team2Id
  · rw [if_pos h0]
    exact ⟨rfl, rfl⟩
  · rw [if_neg h0]
    dsimp only
    split
    · exact ⟨rfl, hmr⟩
    · next p1 hl1 =>
      split
      · exact ⟨rfl, hmr⟩
      · next p2 hl2 =>
        rw [hl1e] at hl1
        rw [hl2e] at hl2
        split_ifs with hne hnr
        · exact ⟨rfl, hmr⟩
        · exact ⟨rfl, hmr⟩
        · exfalso
          push_neg at hne hnr
          rcases hcond with h | h | h | h | h
          · rw [hl1] at h; cases h
          · rw [hl2] at h; cases h
          · rw [hl1, hl2, hne] at h; exact h rfl
          · rw [hl1, hnr] at h; exact h rfl
          · rw [hl2, ← hne, hnr] at h; exact h rfl

/-- C5 witness: a request naming a team of another period and an unknown
team is rejected and inserts nothing. -/
theorem addMatch_validation_witness :
    (addMatchHandler 10 Cache.init crossDb ⟨5, 6, 0, 0⟩).1 = .invalidInput ∧
    (addMatchHandler 10 Cache.init crossDb ⟨5, 6, 0, 0⟩).2.2.matchRows = crossDb.matchRows :=
  addMatch_validation 10 Cache.init crossDb ⟨5, 6, 0, 0⟩ (Or.inr (Or.inl (by decide)))

/-- C7 counterexample: two divergences from the claim as stated.  With
request id 0 on the empty store no scoped row exists, yet the reply is
InvalidInput (HTTP 400), not NotFound.  And on `staleDb` at `2 * daySec`
the delete of the nonexistent id 5 does reply NotFound, but the period
resolution it performs first rotates the stale period, so the `periods`
row count grows from 1 to 2 — the claim said every table's row count is
unchanged. -/
theorem deleteMatch_claim_cex :
    ((deleteMatchHandler 5 Cache.init emptyDb 0).1 = .invalidInput ∧
      emptyDb.matchRows.countP
        (matchTargeted 0 (getOrCreateActivePeriod 5 Cache.init emptyDb).period.id) = 0) ∧
    ((deleteMatchHandler (2 * daySec) Cache.init staleDb 5).1 = .notFound ∧
      (deleteMatchHandler (2 * daySec) Cache.init staleDb 5).2.2.periods.length = 2 ∧
      staleDb.periods.length = 1) := by
  decide

/-- C7 (amended): for every nonzero id: when no match row with that id is
scoped to the period the call resolves, the reply is NotFound (HTTP 404),
never a store error, and the `matches`, `teams` and `players` tables are
unchanged (the period resolution may still rotate or insert a `periods`
row); when a scoped row exists, the scoped rows with that id are removed
and the call reports success. -/
theorem deleteMatch_spec (now : Int) (cache : Cache) (db : DB) (reqId : Nat)
    (hid : reqId ≠ 0) :
    (db.matchRows.countP
        (matchTargeted reqId (getOrCreateActivePeriod now cache db).period.id) = 0 →
      (deleteMatchHandler now cache db reqId).1 = .notFound ∧
      (deleteMatchHandler now cache db reqId).2.2.matchRows = db.matchRows ∧
      (deleteMatchHandler now cache db reqId).2.2.teams = db.teams ∧
      (deleteMatchHandler now cache db reqId).2.2.players = db.players) ∧
    (db.matchRows.countP
        (matchTargeted reqId (getOrCreateActivePeriod now cache db).period.id) ≠ 0 →
      (deleteMatchHandler now cache db reqId).1 = .ok ∧
      (deleteMatchHandler now cache db reqId).2.2.matchRows =
        db.matchRows.filter
          (fun m => ¬ matchTargeted reqId (getOrCreateActivePeriod now cache db).period.id m)) := by
  obtain ⟨hteams, hplayers, hmr, -, -, -⟩ := getOrCreate_frame now cache db
  unfold deleteMatchHandler
  rw [if_neg hid]
  dsimp only
  rw [hmr]
  constructor
  · intro hz
    rw [hz, if_pos rfl]
    refine ⟨rfl, ?_, hteams, hplayers⟩
    exact filter_not_eq_self_of_countP_zero hz
  · intro hnz
    rw [if_neg hnz]
    exact ⟨rfl, rfl⟩

/-- C7 witness: deleting the nonexistent match id 5 while the active
period is fresh replies NotFound and leaves the three entity tables as
they were. -/
theorem deleteMatch_spec_witness :
    (deleteMatchHandler 10 Cache.init staleDb 5).1 = .notFound ∧
    (deleteMatchHandler 10 Cache.init staleDb 5).2.2.matchRows = staleDb.matchRows ∧
    (deleteMatchHandler 10 Cache.init staleDb 5).2.2.teams = staleDb.teams ∧
    (deleteMatchHandler 10 Cache.init staleDb 5).2.2.players = staleDb.players :=
  (deleteMatch_spec 10 Cache.init staleDb 5 (by decide)).1 (by decide)

/-- `playerTargeted` reads only the `teams` table of the store it is
given. -/
theorem playerTargeted_congr {db1 db2 : DB} (h : db1.teams = db2.teams)
    (name : String) (teamId pid : Nat) (p : PlayerRow) :
    playerTargeted db1 name teamId pid p = playerTargeted db2 name teamId pid p := by
  unfold playerTargeted; rw [h]

/-- C10: the scoped deletes never touch rows of other periods.  A match
row whose period differs from the resolved one survives every
`deleteMatchHandler` call, and a delete naming such a row's id (the ids
being unique and nonzero) replies NotFound; a player row whose owning team
is outside the resolved period survives every `deletePlayerHandler` call,
and a delete naming such a row replies NotFound. -/
theorem scoped_deletes_frame (now : Int) (cache : Cache) (db : DB)
    (reqId : Nat) (name : String) (teamId : Nat) :
    (∀ m ∈ db.matchRows, m.periodId ≠ (getOrCreateActivePeriod now cache db).period.id →
      m ∈ (deleteMatchHandler now cache db reqId).2.2.matchRows) ∧
    (∀ m ∈ db.matchRows, matchIdsUnique db → reqId ≠ 0 → m.id = reqId →
      m.periodId ≠ (getOrCreateActivePeriod now cache db).period.id →
      (deleteMatchHandler now cache db reqId).1 = .notFound) ∧
    (∀ p ∈ db.players,
      (∀ t ∈ db.teams, t.id = p.teamId →
        t.periodId ≠ (getOrCreateActivePeriod now cache db).period.id) →
      p ∈ (deletePlayerHandler now cache db name teamId).2.2.players) ∧
    (∀ p ∈ db.players, teamId ≠ 0 → isBlank name = false → p.name = name → p.teamId = teamId →
      (∀ t ∈ db.teams, t.id = teamId →
        t.periodId ≠ (getOrCreateActivePeriod now cache db).period.id) →
      (deletePlayerHandler now cache db name teamId).1 = .notFound) := by
  obtain ⟨hteams, hplayers, hmr, -, -, -⟩ := getOrCreate_frame now cache db
  refine ⟨?_, ?_, ?_, ?_⟩
  · intro m hm hmp
    unfold deleteMatchHandler
    by_cases h0 : reqId = 0
    · rw [if_pos h0]; exact hm
    · rw [if_neg h0]
      dsimp only
      split
      all_goals
        rw [hmr]
        refine List.mem_filter.mpr ⟨hm, ?_⟩
        simp [matchTargeted, hmp]
  · intro m hm huniq h0 hmid hmp
    unfold deleteMatchHandler
    rw [if_neg h0]
    dsimp only
    rw [hmr]
    have hz : db.matchRows.countP
        (matchTargeted reqId (getOrCreateActivePeriod now cache db).period.id) = 0 := by
      rw [List.countP_eq_zero]
      intro m2 hm2 hpred
      have h1 : m2.id = reqId ∧
          m2.periodId = (getOrCreateActivePeriod now cache db).period.id := by
        simpa [matchTargeted] using hpred
      by_cases heq : m2 = m
      · subst heq; exact hmp h1.2
      · have hne := huniq.forall (fun a b hab => Ne.symm hab) hm2 hm heq
        exact hne (h1.1.trans hmid.symm)
    rw [hz, if_pos rfl]
  · intro p hp hteamp
    unfold deletePlayerHandler
    by_cases hg : teamId = 0 ∨ isBlank name = true
    · rw [if_pos hg]; exact hp
    · rw [if_neg hg]
      dsimp only
      have hpt : playerTargeted (getOrCreateActivePeriod now cache db).db name teamId
          (getOrCreateActivePeriod now cache db).period.id p = false := by
        rw [playerTargeted_congr hteams]
        simp only [playerTargeted]
        simp only [decide_eq_false_iff_not]
        rintro ⟨-, -, hany⟩
        rcases List.any_eq_true.mp hany with ⟨t, ht, htc⟩
        rcases of_decide_eq_true htc with ⟨htid, htpid⟩
        exact hteamp t ht htid htpid
      split
      all_goals
        rw [hplayers]
        exact List.mem_filter.mpr ⟨hp, by simp [hpt]⟩
  · intro p hp h0 hbl hpn hpt hteamp
    unfold deletePlayerHandler
    have hg : ¬ (teamId = 0 ∨ isBlank name = true) := by
      simp [h0, hbl]
    rw [if_neg hg]
    dsimp only
    have hz : (getOrCreateActivePeriod now cache db).db.players.countP
        (playerTargeted (getOrCreateActivePeriod now cache db).db name teamId
          (getOrCreateActivePeriod now cache db).period.id) = 0 := by
      rw [List.countP_eq_zero]
      intro p2 hp2
      rw [playerTargeted_congr hteams]
      simp only [playerTargeted, Bool.not_eq_true, decide_eq_false_iff_not]
      rintro ⟨-, hpt2, hany⟩
      rcases List.any_eq_true.mp hany with ⟨t, ht, htc⟩
      rcases of_decide_eq_true htc with ⟨htid, htpid⟩
      exact hteamp t ht (htid.trans hpt2) htpid
    rw [hz, if_pos rfl]

/-- When the upsert's `ON CONFLICT` fires — a row with the name and
period exists — the existing id is returned and the `teams` table is
unchanged (the conflict update rewrites the name to itself). -/
theorem upsertTeam_found (db : DB) (pid : Nat) (name : String) (t : TeamRow)
    (hu : teamsUnique db)
    (h : db.teams.find? (fun t => t.name = name ∧ t.periodId = pid) = some t) :
    (upsertTeam db pid name).1.1 = t.id ∧ (upsertTeam db pid name).2.teams = db.teams := by
  have hpred := List.find?_some h
  have hmem := List.mem_of_find?_eq_some h
  obtain ⟨htn, -⟩ := of_decide_eq_true hpred
  have hmap : ∀ u ∈ db.teams,
      (if u.id = t.id then { u with name := name } else u) = u := by
    intro u hu'
    by_cases hid : u.id = t.id
    · have huet : u = t := by
        by_contra hne
        have hsym : Symmetric (fun a b : TeamRow =>
            a.id ≠ b.id ∧ (a.name ≠ b.name ∨ a.periodId ≠ b.periodId)) := by
          rintro a b ⟨h1, h2⟩
          exact ⟨Ne.symm h1, h2.imp Ne.symm Ne.symm⟩
        exact ((hu.forall hsym) hu' hmem hne).1 hid
      subst huet
      rw [if_pos rfl, ← htn]
    · rw [if_neg hid]
  unfold upsertTeam
  rw [h]
  dsimp only
  refine ⟨rfl, ?_⟩
  rw [List.map_congr_left hmap]
  simp

/-- When no row with the name and period exists, the upsert inserts a
fresh row carrying the next `SERIAL` id and returns that id. -/
theorem upsertTeam_new (db : DB) (pid : Nat) (name : String)
    (h : db.teams.find? (fun t => t.name = name ∧ t.periodId = pid) = none) :
    (upsertTeam db pid name).1.1 = db.nextTeamId ∧
    (upsertTeam db pid name).2.teams = db.teams ++ [⟨db.nextTeamId, name, pid⟩] := by
  unfold upsertTeam
  rw [h]
  exact ⟨rfl, rfl⟩

/-- C3: `upsertTeam` (the insert-on-conflict of `addTeamHandler`) is
idempotent: under the schema's uniqueness constraint and `SERIAL`
freshness, running it twice with the same non-empty name against the same
period returns the same id both times and leaves exactly one row for
`(name, period)`. -/
theorem upsertTeam_idempotent (db : DB) (pid : Nat) (name : String)
    (hu : teamsUnique db) (hfresh : teamIdsFresh db) (_hname : name ≠ "") :
    (upsertTeam (upsertTeam db pid name).2 pid name).1.1 = (upsertTeam db pid name).1.1 ∧
    (upsertTeam (upsertTeam db pid name).2 pid name).2.teams.countP
        (fun t => t.name = name ∧ t.periodId = pid) = 1 := by
  have hpredrow : (fun t : TeamRow => decide (t.name = name ∧ t.periodId = pid))
      ⟨db.nextTeamId, name, pid⟩ = true := by simp
  cases h : db.teams.find? (fun t => t.name = name ∧ t.periodId = pid) with
  | none =>
    obtain ⟨hid1, hteams1⟩ := upsertTeam_new db pid name h
    have hz : db.teams.countP (fun t => t.name = name ∧ t.periodId = pid) = 0 := by
      rw [List.countP_eq_zero]
      exact fun x hx => List.find?_eq_none.mp h x hx
    have hu1 : teamsUnique (upsertTeam db pid name).2 := by
      unfold teamsUnique
      rw [hteams1, List.pairwise_append]
      refine ⟨hu, List.pairwise_singleton _ _, ?_⟩
      intro a ha b hb
      rcases List.mem_singleton.mp hb with rfl
      refine ⟨hfresh a ha, ?_⟩
      have hnp := List.find?_eq_none.mp h a ha
      simp only [decide_eq_true_eq] at hnp
      by_cases hn : a.name = name
      · exact Or.inr fun hp => hnp ⟨hn, hp⟩
      · exact Or.inl hn
    have hfind2 : (upsertTeam db pid name).2.teams.find?
        (fun t => t.name = name ∧ t.periodId = pid) = some ⟨db.nextTeamId, name, pid⟩ := by
      rw [hteams1, List.find?_append, h]
      simp
    obtain ⟨hid2, hteams2⟩ :=
      upsertTeam_found (upsertTeam db pid name).2 pid name ⟨db.nextTeamId, name, pid⟩ hu1 hfind2
    refine ⟨by rw [hid2, hid1], ?_⟩
    rw [hteams2, hteams1, List.countP_append, hz]
    simp
  | some t =>
    obtain ⟨hid1, hteams1⟩ := upsertTeam_found db pid name t hu h
    have hfind2 : (upsertTeam db pid name).2.teams.find?
        (fun t => t.name = name ∧ t.periodId = pid) = some t := by rw [hteams1, h]
    have hu1 : teamsUnique (upsertTeam db pid name).2 := by
      unfold teamsUnique
      rw [hteams1]
      exact hu
    obtain ⟨hid2, hteams2⟩ := upsertTeam_found (upsertTeam db pid name).2 pid name t hu1 hfind2
    refine ⟨by rw [hid2, hid1], ?_⟩
    rw [hteams2, hteams1]
    have hpair : db.teams.Pairwise (fun a b =>
        ¬((fun u : TeamRow => decide (u.name = name ∧ u.periodId = pid)) a = true ∧
          (fun u : TeamRow => decide (u.name = name ∧ u.periodId = pid)) b = true)) := by
      refine hu.imp ?_
      intro a b hab
      rintro ⟨hpa, hpb⟩
      obtain ⟨han, hap⟩ := of_decide_eq_true hpa
      obtain ⟨hbn, hbp⟩ := of_decide_eq_true hpb
      rcases hab.2 with hne | hne
      · exact hne (han.trans hbn.symm)
      · exact hne (hap.trans hbp.symm)
    have hmemt : t ∈ db.teams := List.mem_of_find?_eq_some h
    have hpt := List.find?_some h
    exact @countP_eq_one_of_pairwise TeamRow db.teams _ hpair t hmemt hpt

/-- C3 witness: registering "Red" twice in period 1 of the empty store. -/
theorem upsertTeam_idempotent_witness :
    (upsertTeam (upsertTeam emptyDb 1 "Red").2 1 "Red").1.1 =
      (upsertTeam emptyDb 1 "Red").1.1 ∧
    (upsertTeam (upsertTeam emptyDb 1 "Red").2 1 "Red").2.teams.countP
        (fun t => t.name = "Red" ∧ t.periodId = 1) = 1 :=
  upsertTeam_idempotent emptyDb 1 "Red" (by decide) (by decide) (by decide)

/-- C4 counterexample: the query's `ORDER BY` names no tiebreak beyond
`(goals+assists) DESC, goals DESC`.  The two players of `tieDb` tie on
both keys, so the reply listing them in stored order — the
lexicographically larger name first — is a possible outcome of the query,
yet it is not ordered by name ascending as the claim demands. -/
theorem listPlayers_no_name_tiebreak :
    listPlayersOutcome tieDb 1 [playerTieB, playerTieA] ∧
    ¬ specOrdered [playerTieB, playerTieA] :=
  ⟨⟨by decide, by decide⟩, by decide⟩

/-- C4 (amended): the reply is a permutation of the period's players,
non-increasing in the key pair `(goals+assists, goals)`; the `ORDER BY`
names no further tiebreak, so the relative order of players tying on both
keys is unspecified.  On the specification's example A(3,1), B(2,2),
C(3,0) the key pairs (4,3), (4,2), (3,3) are pairwise distinct, so every
possible reply is exactly A, B, C, whatever the stored order. -/
theorem listPlayers_ranking (db : DB) (pid : Nat)
    (hrows : (periodPlayers db pid).Perm [specPlayerA, specPlayerB, specPlayerC]) :
    ∀ out, listPlayersOutcome db pid out → out = [specPlayerA, specPlayerB, specPlayerC] := by
  rintro out ⟨hperm, hsorted⟩
  have h2 : out.Perm [specPlayerA, specPlayerB, specPlayerC] := hperm.trans hrows
  have hs1 : List.Sorted keyGE (out.map playerKey) := (List.pairwise_map).mpr hsorted
  have hs2 : List.Sorted keyGE ([specPlayerA, specPlayerB, specPlayerC].map playerKey) := by
    decide
  have hmap : out.map playerKey = [specPlayerA, specPlayerB, specPlayerC].map playerKey :=
    List.eq_of_perm_of_sorted (h2.map playerKey) hs1 hs2
  have hlen : out.length = 3 := h2.length_eq
  rcases out with - | ⟨x, out1⟩
  · simp at hlen
  rcases out1 with - | ⟨y, out2⟩
  · simp at hlen
  rcases out2 with - | ⟨z, out3⟩
  · simp at hlen
  rcases out3 with - | ⟨w, out4⟩
  case cons.cons.cons.cons => simp at hlen
  simp only [List.map_cons, List.map_nil, List.cons.injEq, and_true] at hmap
  obtain ⟨hx, hy, hz⟩ := hmap
  have hxm : x ∈ [specPlayerA, specPlayerB, specPlayerC] := h2.subset (by simp)
  have hym : y ∈ [specPlayerA, specPlayerB, specPlayerC] := h2.subset (by simp)
  have hzm : z ∈ [specPlayerA, specPlayerB, specPlayerC] := h2.subset (by simp)
  rcases (by simpa using hxm : x = specPlayerA ∨ x = specPlayerB ∨ x = specPlayerC)
    with rfl | rfl | rfl
  rotate_left
  · exact absurd hx (by decide)
  · exact absurd hx (by decide)
  rcases (by simpa using hym : y = specPlayerA ∨ y = specPlayerB ∨ y = specPlayerC)
    with rfl | rfl | rfl
  · exact absurd hy (by decide)
  rotate_left
  · exact absurd hy (by decide)
  rcases (by simpa using hzm : z = specPlayerA ∨ z = specPlayerB ∨ z = specPlayerC)
    with rfl | rfl | rfl
  · exact absurd hz (by decide)
  · exact absurd hz (by decide)
  rfl

/-- C4 witness: on `rankDb`, which stores the example's players in the
order B, C, A, the only reply the query relation admits is A, B, C. -/
theorem listPlayers_ranking_witness :
    listPlayersOutcome rankDb 1 [specPlayerA, specPlayerB, specPlayerC] ∧
    [specPlayerA, specPlayerB, specPlayerC] = [specPlayerA, specPlayerB, specPlayerC] :=
  ⟨⟨by decide, by decide⟩,
    listPlayers_ranking rankDb 1 (by decide) [specPlayerA, specPlayerB, specPlayerC]
      ⟨by decide, by decide⟩⟩

/-- C8: `periodFromRequest` failure modes.  A nonempty `period` query
parameter that fails Go's `2006-01-02` parse yields the InvalidInput
condition, surfaced by the listing handlers as HTTP 400; a well-formed
date with no stored period starting inside its UTC day window yields the
`sql.ErrNoRows` condition, surfaced as HTTP 404.  In both cases the store
comes back untouched: no period is created or guessed. -/
theorem periodFromRequest_failure_modes (now : Int) (cache : Cache) (db : DB) (param : String)
    (hne : goTrimSpace param ≠ "") :
    (parseGoDate (goTrimSpace param) = none →
      periodFromRequest now cache db param = (.error .invalidInput, cache, db) ∧
      statusOfResolveErr .invalidInput = 400) ∧
    (∀ dt, parseGoDate (goTrimSpace param) = some dt → findPeriodByDate db dt = none →
      periodFromRequest now cache db param = (.error .noRows, cache, db) ∧
      statusOfResolveErr .noRows = 404) := by
  unfold periodFromRequest
  dsimp only
  rw [if_neg hne]
  constructor
  · intro hp
    rw [hp]
    exact ⟨rfl, rfl⟩
  · intro dt hp hf
    rw [hp]
    dsimp only
    rw [hf]
    exact ⟨rfl, rfl⟩

/-- C8 witness: an unparseable parameter is a 400 and a well-formed date
with no stored period is a 404, both leaving the empty store empty. -/
theorem periodFromRequest_failure_modes_witness :
    (periodFromRequest 0 Cache.init emptyDb "nonsense" =
      (.error .invalidInput, Cache.init, emptyDb)) ∧
    (periodFromRequest 0 Cache.init emptyDb "2024-05-06" =
      (.error .noRows, Cache.init, emptyDb)) :=
  ⟨((periodFromRequest_failure_modes 0 Cache.init emptyDb "nonsense" (by decide)).1
      (by decide)).1,
   ((periodFromRequest_failure_modes 0 Cache.init emptyDb "2024-05-06" (by decide)).2
      ⟨2024, 5, 6⟩ (by decide) (by decide)).1⟩

/-- C10 witness: on `frameDb`, whose match 7 and player "N" live in the
closed period 2, deleting match 7 and deleting player ("N", team 2) both
reply NotFound and both rows survive. -/
theorem scoped_deletes_frame_witness :
    (⟨7, 2, 2, 0, 0, -150, 2⟩ : MatchRow) ∈
        (deleteMatchHandler 10 Cache.init frameDb 7).2.2.matchRows ∧
    (deleteMatchHandler 10 Cache.init frameDb 7).1 = .notFound ∧
    (⟨1, "N", 2, 0, 0⟩ : PlayerRow) ∈
        (deletePlayerHandler 10 Cache.init frameDb "N" 2).2.2.players ∧
    (deletePlayerHandler 10 Cache.init frameDb "N" 2).1 = .notFound := by
  obtain ⟨hf1, hf2, hf3, hf4⟩ := scoped_deletes_frame 10 Cache.init frameDb 7 "N" 2
  refine ⟨hf1 ⟨7, 2, 2, 0, 0, -150, 2⟩ (by decide) (by decide),
          hf2 ⟨7, 2, 2, 0, 0, -150, 2⟩ (by decide) (by decide) (by decide) (by decide) (by decide),
          hf3 ⟨1, "N", 2, 0, 0⟩ (by decide) (by decide),
          hf4 ⟨1, "N", 2, 0, 0⟩ (by decide) (by decide) (by decide) (by decide) (by decide) (by decide)⟩

end League
